import Mathlib

/-!
Verification of the `fixer` package (src/fixer/__init__.py): a renderer that
converts a mistletoe Markdown AST, extended with Hugo shortcode span tokens,
into Org-mode text together with a metadata preamble.

The embedding below translates the Python source:
  * `PyValue` / `Metadata` model the loosely-typed front-matter mapping
    (`dict.get`, Python truthiness, `str()` formatting);
  * `Token` is the closed set of node kinds for which `OrgRenderer` defines a
    `render_*` method (mistletoe tokens plus `FigureTag`, `RefTag`,
    `RelRefTag`);
  * `renderTok` / `renderInner` translate the `render_*` methods and
    `BaseRenderer.render_inner` (string concatenation over children),
    threading the metadata mapping through the call (Python's `self.metadata`
    is a shared mutable dict, so the state is passed explicitly) and
    collecting the diagnostic output produced by `pprint` calls;
  * `Regex`, `searchB` and `figurePattern` model the `FigureTag.pattern`
    regular expression and `re`'s search-anywhere matching.
-/

namespace Fixer

/-- A loosely-typed Python value stored in the front-matter metadata dict. -/
inductive PyValue where
  | vStr (s : String)
  | vInt (n : Int)
deriving DecidableEq

/-- Python truthiness of a metadata value (`if date` / `if author`). -/
def pyTruthy : PyValue → Bool
  | .vStr s => !(s == "")
  | .vInt n => !(n == 0)

/-- Python `str()` as used by f-string interpolation. -/
def pyFormat : PyValue → String
  | .vStr s => s
  | .vInt n => toString n

/-- The metadata mapping: string keys to loosely-typed values, with first
match lookup (Python dict keys are unique, so an association list with
first-match lookup is an exact model). -/
abbrev Metadata := List (String × PyValue)

/-- `dict.get(key, None)` on the metadata mapping. -/
def Metadata.get : Metadata → String → Option PyValue
  | [], _ => none
  | (k, v) :: rest, key => if k = key then some v else Metadata.get rest key

/-- The closed set of node kinds the renderer defines a rule for: the
mistletoe block and span tokens with a `render_*` method in `OrgRenderer`,
plus the three Hugo extension tokens registered in `OrgRenderer.__init__`. -/
inductive Token where
  | rawText (content : String)
  | strong (children : List Token)
  | emphasis (children : List Token)
  | inlineCode (children : List Token)
  | strikethrough (children : List Token)
  | image (children : List Token)
  | link (target : String) (children : List Token)
  | autoLink (target : String) (children : List Token)
  | escapeSequence (children : List Token)
  | lineBreak (soft : Bool)
  | heading (level : Nat) (children : List Token)
  | quote (children : List Token)
  | paragraph (children : List Token)
  | blockCode (language : String) (children : List Token)
  | list (children : List Token)
  | listItem (prepend : Nat) (children : List Token)
  | table (children : List Token)
  | tableRow (children : List Token)
  | tableCell (children : List Token)
  | thematicBreak (children : List Token)
  | document (children : List Token)
  | figureTag (target : String)
  | refTag (title : String) (target : String)
  | relRefTag (title : String) (target : String)

/-- Result of rendering: the produced string, the metadata mapping as left
after the call, and the tokens dumped to stdout by `pprint` calls (the
diagnostic side effect of `render_list_item`), in emission order. -/
structure RenderOut where
  out : String
  md : Metadata
  debug : List Token

/-- Python string repetition `n * s`. -/
def nCopies (n : Nat) (s : String) : String :=
  match n with
  | 0 => ""
  | n + 1 => s ++ nCopies n s

/-- The title fragment of `render_document`:
`f"#+title: \x7btitle\x7d"` with `title = self.metadata.get("title", "")`. -/
def titleFrag (md : Metadata) : String :=
  "#+title: " ++ pyFormat ((Metadata.get md "title").getD (PyValue.vStr ""))

/-- The date fragment of `render_document`:
`f"#+date: \x7bdate\x7d" if date else ""` with
`date = self.metadata.get("date", None)`. -/
def dateFrag (md : Metadata) : String :=
  match Metadata.get md "date" with
  | some d => if pyTruthy d then "#+date: " ++ pyFormat d else ""
  | none => ""

/-- The author fragment of `render_document`:
`f"#+author: \x7bauthor\x7d" if author else ""` with
`author = self.metadata.get("author", None)`. -/
def authorFrag (md : Metadata) : String :=
  match Metadata.get md "author" with
  | some a => if pyTruthy a then "#+author: " ++ pyFormat a else ""
  | none => ""

/-- The `output` list built by `render_document` before the de-duplication
pass: title line, newline, optional date line, newline, optional author
line, newline, then the rendered document body. -/
def documentFragments (md : Metadata) (inner : String) : List String :=
  [titleFrag md, "\n", dateFrag md, "\n", authorFrag md, "\n", inner]

/-- The walrus de-duplication pass of `render_document`:
`prev = object(); output = [prev := i for i in output if prev != i]`.
The accumulator is `none` for the initial marker object (unequal to every
string); an element is kept exactly when it differs from the last kept
element, and `prev` is updated only when the element is kept (the walrus
assignment runs only when the filter condition holds). -/
def dedupAux : Option String → List String → List String
  | _, [] => []
  | prev, i :: rest =>
      if prev = some i then dedupAux prev rest
      else i :: dedupAux (some i) rest

/-- `render_document`'s de-duplication over the assembled fragments. -/
def dedupPass (output : List String) : List String :=
  dedupAux none output

mutual

/-- Translation of the `OrgRenderer.render_*` methods, one match arm per
method, dispatching on the token kind. -/
def renderTok (md : Metadata) : Token → RenderOut
  | .rawText content => ⟨content, md, []⟩
  | .strong cs =>
      let r := renderInner md cs
      ⟨"*" ++ r.out ++ "*", r.md, r.debug⟩
  | .emphasis cs => renderInner md cs
  | .inlineCode cs =>
      let r := renderInner md cs
      ⟨"~" ++ r.out ++ "~", r.md, r.debug⟩
  | .strikethrough cs => renderInner md cs
  | .image cs => renderInner md cs
  | .link target cs =>
      let r := renderInner md cs
      ⟨"[[" ++ target ++ "][" ++ r.out ++ "]]", r.md, r.debug⟩
  | .autoLink target cs =>
      let r := renderInner md cs
      ⟨"[[" ++ target ++ "][" ++ r.out ++ "]]", r.md, r.debug⟩
  | .escapeSequence cs => renderInner md cs
  | .lineBreak soft => ⟨if !soft then "\n" else " ", md, []⟩
  | .heading level cs =>
      let r := renderInner md cs
      ⟨nCopies level "*" ++ " " ++ r.out ++ nCopies 2 "\n", r.md, r.debug⟩
  | .quote cs => renderInner md cs
  | .paragraph cs =>
      let r := renderInner md cs
      ⟨r.out ++ nCopies 2 "\n", r.md, r.debug⟩
  | .blockCode language cs =>
      let r := renderInner md cs
      ⟨"#+begin_src" ++ (" " ++ language) ++ "\n" ++ r.out
        ++ "#+end_src" ++ nCopies 2 "\n", r.md, r.debug⟩
  | .list cs => renderInner md cs
  | .listItem prepend cs =>
      let r := renderInner md cs
      ⟨nCopies prepend " " ++ "- " ++ r.out, r.md,
        Token.listItem prepend cs :: r.debug⟩
  | .table cs => renderInner md cs
  | .tableRow cs => renderInner md cs
  | .tableCell cs => renderInner md cs
  | .thematicBreak cs => renderInner md cs
  | .document cs =>
      let r := renderInner md cs
      ⟨String.join (dedupPass (documentFragments md r.out)), r.md, r.debug⟩
  | .figureTag target => ⟨"[[" ++ target ++ "]]", md, []⟩
  | .refTag title target =>
      ⟨"[[" ++ target ++ "][" ++ title ++ "]]", md, []⟩
  | .relRefTag title target =>
      ⟨"[[" ++ target ++ "][" ++ title ++ "]]", md, []⟩

/-- Translation of `BaseRenderer.render_inner`:
`''.join(map(self.render, token.children))`, threading the metadata state
left-to-right and concatenating diagnostic output in emission order. -/
def renderInner (md : Metadata) : List Token → RenderOut
  | [] => ⟨"", md, []⟩
  | t :: ts =>
      let r := renderTok md t
      let rs := renderInner r.md ts
      ⟨r.out ++ rs.out, rs.md, r.debug ++ rs.debug⟩

end

/-! ### Regular expressions

A small classical regular-expression language with Brzozowski-derivative
matching, used to embed `FigureTag.pattern` faithfully.  Laziness of the
Python quantifier `(.+?)` affects which match is reported, never whether a
match exists, so language membership is the right notion for deciding
whether a span of source text produces a `FigureTag` node
(`re.finditer` reports a match anywhere in the span). -/

/-- Regular expressions over characters, with character classes. -/
inductive Regex where
  | emp
  | eps
  | cls (p : Char → Bool)
  | cat (a b : Regex)
  | alt (a b : Regex)
  | star (a : Regex)

/-- Does the regular expression accept the empty string? -/
def Regex.nullable : Regex → Bool
  | .emp => false
  | .eps => true
  | .cls _ => false
  | .cat a b => a.nullable && b.nullable
  | .alt a b => a.nullable || b.nullable
  | .star _ => true

/-- Brzozowski derivative of a regular expression by a character. -/
def Regex.deriv : Regex → Char → Regex
  | .emp, _ => .emp
  | .eps, _ => .emp
  | .cls p, c => if p c then .eps else .emp
  | .cat a b, c =>
      if a.nullable then .alt (.cat (a.deriv c) b) (b.deriv c)
      else .cat (a.deriv c) b
  | .alt a b, c => .alt (a.deriv c) (b.deriv c)
  | .star a, c => .cat (a.deriv c) (.star a)

/-- Does some prefix of the character list match the regular expression? -/
def matchesPrefix (r : Regex) : List Char → Bool
  | [] => r.nullable
  | c :: cs => r.nullable || matchesPrefix (r.deriv c) cs

/-- Does the regular expression match somewhere inside the character list
(the semantics of `re.finditer` finding at least one match)? -/
def searchB (r : Regex) : List Char → Bool
  | [] => r.nullable
  | c :: cs => matchesPrefix r (c :: cs) || searchB r cs

/-- A single literal character. -/
def Regex.lit (c : Char) : Regex := .cls (fun d => d == c)

/-- A literal character sequence. -/
def Regex.lits : List Char → Regex
  | [] => .eps
  | c :: cs => .cat (.lit c) (Regex.lits cs)

/-- `r+`: one or more repetitions. -/
def Regex.plus (r : Regex) : Regex := .cat r (.star r)

/-- The character class `\s` of Python `re`. -/
def wsChar (c : Char) : Bool :=
  c == ' ' || c == '\t' || c == '\n' || c == '\r' || c == '\x0b' || c == '\x0c'

/-- The character class `.` of Python `re` without `DOTALL`: any character
except a newline. -/
def dotChar (c : Char) : Bool := !(c == '\n')

/-- `FigureTag.pattern`, the regex
`\x7b\x7b<\s+figure src=\"*(.+?)\"\s+>\x7d\x7d`, as a regular language
(the capturing group is immaterial for match existence). -/
def figurePattern : Regex :=
  .cat (.lits "\x7b\x7b<".data)
    (.cat (.plus (.cls wsChar))
      (.cat (.lits "figure src=".data)
        (.cat (.star (.lit '"'))
          (.cat (.plus (.cls dotChar))
            (.cat (.lit '"')
              (.cat (.plus (.cls wsChar))
                (.lits ">\x7d\x7d".data)))))))

/-- Sanity check that the embedded pattern accepts a well-formed figure
shortcode. -/
theorem figurePattern_accepts_wellformed :
    searchB figurePattern "\x7b\x7b< figure src=\"/img/a.png\" >\x7d\x7d".data
      = true := rfl

/-! ### Newline runs at block junctions

Helpers for stating the block-separator claim: the number of consecutive
newline characters spanning the junction of two concatenated block
renderings is the count of trailing newlines of the first plus the count of
leading newlines of the second. -/

/-- Number of leading newline characters of a character list. -/
def leadingNLc : List Char → Nat
  | [] => 0
  | c :: cs => if c = '\n' then leadingNLc cs + 1 else 0

/-- Is the first character a newline? -/
def headIsNL : List Char → Bool
  | [] => false
  | c :: _ => c == '\n'

/-- Number of trailing newline characters of a character list. -/
def trailingNLc (cs : List Char) : Nat := leadingNLc cs.reverse

/-- Does the string end with a newline character? -/
def endsNL (s : String) : Bool := headIsNL s.data.reverse

/-- The run of consecutive newline characters spanning the junction when
`s` is followed directly by `t` in the output. -/
def newlinesBetween (s t : String) : Nat :=
  trailingNLc s.data + leadingNLc t.data

/-- Block kinds subject to the double-newline separator policy. -/
def isSepBlock : Token → Bool
  | .heading _ _ => true
  | .paragraph _ => true
  | .blockCode _ _ => true
  | _ => false

/-- The inline content of the block does not itself render to a string
ending in a newline (for a code block the end marker makes this automatic). -/
def innerEndsOK (md : Metadata) : Token → Bool
  | .heading _ cs => !endsNL (renderInner md cs).out
  | .paragraph cs => !endsNL (renderInner md cs).out
  | _ => true

/-- The block's rendering does not start with a newline: automatic for
headings and code blocks, and for a paragraph it means the inline content
renders to a nonempty string not starting with a newline. -/
def startOK (md : Metadata) : Token → Bool
  | .paragraph cs =>
      match (renderInner md cs).out.data with
      | [] => false
      | c :: _ => !(c == '\n')
  | _ => true

theorem data_append (a b : String) : (a ++ b).data = a.data ++ b.data := rfl

theorem leadingNLc_of_head (l : List Char) (h : headIsNL l = false) :
    leadingNLc l = 0 := by
  cases l with
  | nil => rfl
  | cons c cs =>
    have h' : ¬c = '\n' := by simpa [headIsNL] using h
    simp [leadingNLc, h']

theorem headIsNL_append_left (xs ys : List Char) (hne : xs ≠ [])
    (hx : headIsNL xs = false) : headIsNL (xs ++ ys) = false := by
  cases xs with
  | nil => exact absurd rfl hne
  | cons c cs => simpa [headIsNL] using hx

theorem headIsNL_append (xs ys : List Char) (hx : headIsNL xs = false)
    (hy : headIsNL ys = false) : headIsNL (xs ++ ys) = false := by
  cases xs with
  | nil => simpa using hy
  | cons c cs => simpa [headIsNL] using hx

theorem nn_eq : nCopies 2 "\n" = "\n\n" := rfl

theorem trailing_two (p : String) (h : endsNL p = false) :
    trailingNLc (p ++ "\n\n").data = 2 := by
  have hd : (p ++ "\n\n").data = p.data ++ ['\n', '\n'] := rfl
  rw [trailingNLc, hd, List.reverse_append]
  show leadingNLc ('\n' :: '\n' :: p.data.reverse) = 2
  have h0 : leadingNLc p.data.reverse = 0 := leadingNLc_of_head _ h
  simp [leadingNLc, h0]

theorem endsNL_salt (s o : String) (ho : endsNL o = false) :
    endsNL (s ++ " " ++ o) = false := by
  show headIsNL ((s ++ " " ++ o).data.reverse) = false
  have hd : (s ++ " " ++ o).data = (s.data ++ [' ']) ++ o.data := rfl
  rw [hd, List.reverse_append]
  refine headIsNL_append _ _ ho ?_
  rw [List.reverse_append]
  show headIsNL (' ' :: s.data.reverse) = false
  rfl

theorem trailing_of_sep (md : Metadata) (b : Token) (hb : isSepBlock b = true)
    (hE : innerEndsOK md b = true) :
    trailingNLc (renderTok md b).out.data = 2 := by
  cases b with
  | heading level cs =>
    have ho : endsNL (renderInner md cs).out = false := by
      simpa [innerEndsOK] using hE
    have hout : (renderTok md (Token.heading level cs)).out
        = (nCopies level "*" ++ " " ++ (renderInner md cs).out) ++ "\n\n" := by
      simp [renderTok, nn_eq]
    rw [hout]
    exact trailing_two _ (endsNL_salt _ _ ho)
  | paragraph cs =>
    have ho : endsNL (renderInner md cs).out = false := by
      simpa [innerEndsOK] using hE
    have hout : (renderTok md (Token.paragraph cs)).out
        = (renderInner md cs).out ++ "\n\n" := by
      simp [renderTok, nn_eq]
    rw [hout]
    exact trailing_two _ ho
  | blockCode language cs =>
    have hout : (renderTok md (Token.blockCode language cs)).out
        = ("#+begin_src" ++ (" " ++ language) ++ "\n" ++ (renderInner md cs).out
            ++ "#+end_src") ++ "\n\n" := by
      simp [renderTok, nn_eq]
    rw [hout]
    refine trailing_two _ ?_
    show headIsNL ((("#+begin_src" ++ (" " ++ language) ++ "\n"
      ++ (renderInner md cs).out ++ "#+end_src").data).reverse) = false
    have hd : ("#+begin_src" ++ (" " ++ language) ++ "\n"
        ++ (renderInner md cs).out ++ "#+end_src").data
        = ("#+begin_src" ++ (" " ++ language) ++ "\n"
            ++ (renderInner md cs).out).data ++ "#+end_src".data := rfl
    rw [hd, List.reverse_append]
    refine headIsNL_append_left _ _ (by decide) (by decide)
  | rawText c => simp [isSepBlock] at hb
  | strong cs => simp [isSepBlock] at hb
  | emphasis cs => simp [isSepBlock] at hb
  | inlineCode cs => simp [isSepBlock] at hb
  | strikethrough cs => simp [isSepBlock] at hb
  | image cs => simp [isSepBlock] at hb
  | link t cs => simp [isSepBlock] at hb
  | autoLink t cs => simp [isSepBlock] at hb
  | escapeSequence cs => simp [isSepBlock] at hb
  | lineBreak s => simp [isSepBlock] at hb
  | quote cs => simp [isSepBlock] at hb
  | list cs => simp [isSepBlock] at hb
  | listItem p cs => simp [isSepBlock] at hb
  | table cs => simp [isSepBlock] at hb
  | tableRow cs => simp [isSepBlock] at hb
  | tableCell cs => simp [isSepBlock] at hb
  | thematicBreak cs => simp [isSepBlock] at hb
  | document cs => simp [isSepBlock] at hb
  | figureTag t => simp [isSepBlock] at hb
  | refTag a b => simp [isSepBlock] at hb
  | relRefTag a b => simp [isSepBlock] at hb

theorem leading_of_sep (md : Metadata) (b : Token) (hb : isSepBlock b = true)
    (hS : startOK md b = true) :
    leadingNLc (renderTok md b).out.data = 0 := by
  cases b with
  | heading level cs =>
    refine leadingNLc_of_head _ ?_
    have hd : (renderTok md (Token.heading level cs)).out.data
        = (nCopies level "*").data ++ ([' '] ++ ((renderInner md cs).out.data
            ++ (nCopies 2 "\n").data)) := by
      have : (renderTok md (Token.heading level cs)).out
          = nCopies level "*" ++ " " ++ (renderInner md cs).out
            ++ nCopies 2 "\n" := by simp [renderTok]
      rw [this]
      show ((((nCopies level "*").data ++ [' ']) ++ (renderInner md cs).out.data)
          ++ (nCopies 2 "\n").data) = _
      simp [List.append_assoc]
    rw [hd]
    cases level with
    | zero =>
      show headIsNL (([] : List Char) ++ ([' '] ++ _)) = false
      rfl
    | succ n =>
      show headIsNL (('*' :: (nCopies n "*").data) ++ ([' '] ++ _)) = false
      rfl
  | paragraph cs =>
    refine leadingNLc_of_head _ ?_
    have hout : (renderTok md (Token.paragraph cs)).out
        = (renderInner md cs).out ++ "\n\n" := by
      simp [renderTok, nn_eq]
    rw [hout]
    cases hdata : (renderInner md cs).out.data with
    | nil => simp [startOK, hdata] at hS
    | cons c l =>
      have hc : (c == '\n') = false := by simpa [startOK, hdata] using hS
      have : ((renderInner md cs).out ++ "\n\n").data = c :: (l ++ ['\n', '\n']) := by
        rw [data_append, hdata]
        rfl
      rw [this]
      simpa [headIsNL] using hc
  | blockCode language cs =>
    refine leadingNLc_of_head _ ?_
    have hout : (renderTok md (Token.blockCode language cs)).out
        = "#+begin_src" ++ ((" " ++ language) ++ ("\n" ++ ((renderInner md cs).out
            ++ ("#+end_src" ++ nCopies 2 "\n")))) := by
      simp [renderTok, String.append_assoc]
    rw [hout]
    show headIsNL ("#+begin_src".data ++ _) = false
    rfl
  | rawText c => simp [isSepBlock] at hb
  | strong cs => simp [isSepBlock] at hb
  | emphasis cs => simp [isSepBlock] at hb
  | inlineCode cs => simp [isSepBlock] at hb
  | strikethrough cs => simp [isSepBlock] at hb
  | image cs => simp [isSepBlock] at hb
  | link t cs => simp [isSepBlock] at hb
  | autoLink t cs => simp [isSepBlock] at hb
  | escapeSequence cs => simp [isSepBlock] at hb
  | lineBreak s => simp [isSepBlock] at hb
  | quote cs => simp [isSepBlock] at hb
  | list cs => simp [isSepBlock] at hb
  | listItem p cs => simp [isSepBlock] at hb
  | table cs => simp [isSepBlock] at hb
  | tableRow cs => simp [isSepBlock] at hb
  | tableCell cs => simp [isSepBlock] at hb
  | thematicBreak cs => simp [isSepBlock] at hb
  | document cs => simp [isSepBlock] at hb
  | figureTag t => simp [isSepBlock] at hb
  | refTag a b => simp [isSepBlock] at hb
  | relRefTag a b => simp [isSepBlock] at hb

/-! ### Frame lemmas

No `render_*` method ever writes to `self.metadata`, so the threaded
mapping is returned unchanged, and the produced string and diagnostic
output depend on the mapping only through the three preamble fragments. -/

mutual

theorem renderTok_md (md : Metadata) (t : Token) : (renderTok md t).md = md := by
  cases t with
  | rawText c => rfl
  | lineBreak s => rfl
  | figureTag t => rfl
  | refTag a b => rfl
  | relRefTag a b => rfl
  | strong cs => simpa [renderTok] using renderInner_md md cs
  | emphasis cs => simpa [renderTok] using renderInner_md md cs
  | inlineCode cs => simpa [renderTok] using renderInner_md md cs
  | strikethrough cs => simpa [renderTok] using renderInner_md md cs
  | image cs => simpa [renderTok] using renderInner_md md cs
  | link t cs => simpa [renderTok] using renderInner_md md cs
  | autoLink t cs => simpa [renderTok] using renderInner_md md cs
  | escapeSequence cs => simpa [renderTok] using renderInner_md md cs
  | heading l cs => simpa [renderTok] using renderInner_md md cs
  | quote cs => simpa [renderTok] using renderInner_md md cs
  | paragraph cs => simpa [renderTok] using renderInner_md md cs
  | blockCode l cs => simpa [renderTok] using renderInner_md md cs
  | list cs => simpa [renderTok] using renderInner_md md cs
  | listItem p cs => simpa [renderTok] using renderInner_md md cs
  | table cs => simpa [renderTok] using renderInner_md md cs
  | tableRow cs => simpa [renderTok] using renderInner_md md cs
  | tableCell cs => simpa [renderTok] using renderInner_md md cs
  | thematicBreak cs => simpa [renderTok] using renderInner_md md cs
  | document cs => simpa [renderTok] using renderInner_md md cs

theorem renderInner_md (md : Metadata) (ts : List Token) :
    (renderInner md ts).md = md := by
  cases ts with
  | nil => rfl
  | cons t ts =>
    simp only [renderInner]
    rw [renderTok_md md t]
    exact renderInner_md md ts

end

/-- The three preamble fragments agree between two metadata mappings. -/
def fragsAgree (md md' : Metadata) : Prop :=
  titleFrag md = titleFrag md' ∧ dateFrag md = dateFrag md'
    ∧ authorFrag md = authorFrag md'

mutual

theorem renderTok_frags (md md' : Metadata) (h : fragsAgree md md') (t : Token) :
    (renderTok md t).out = (renderTok md' t).out
      ∧ (renderTok md t).debug = (renderTok md' t).debug := by
  cases t with
  | rawText c => exact ⟨rfl, rfl⟩
  | lineBreak s => exact ⟨rfl, rfl⟩
  | figureTag t => exact ⟨rfl, rfl⟩
  | refTag a b => exact ⟨rfl, rfl⟩
  | relRefTag a b => exact ⟨rfl, rfl⟩
  | strong cs =>
    have ih := renderInner_frags md md' h cs
    exact ⟨by simp [renderTok, ih.1], by simp [renderTok, ih.2]⟩
  | emphasis cs =>
    have ih := renderInner_frags md md' h cs
    exact ⟨by simp [renderTok, ih.1], by simp [renderTok, ih.2]⟩
  | inlineCode cs =>
    have ih := renderInner_frags md md' h cs
    exact ⟨by simp [renderTok, ih.1], by simp [renderTok, ih.2]⟩
  | strikethrough cs =>
    have ih := renderInner_frags md md' h cs
    exact ⟨by simp [renderTok, ih.1], by simp [renderTok, ih.2]⟩
  | image cs =>
    have ih := renderInner_frags md md' h cs
    exact ⟨by simp [renderTok, ih.1], by simp [renderTok, ih.2]⟩
  | link t cs =>
    have ih := renderInner_frags md md' h cs
    exact ⟨by simp [renderTok, ih.1], by simp [renderTok, ih.2]⟩
  | autoLink t cs =>
    have ih := renderInner_frags md md' h cs
    exact ⟨by simp [renderTok, ih.1], by simp [renderTok, ih.2]⟩
  | escapeSequence cs =>
    have ih := renderInner_frags md md' h cs
    exact ⟨by simp [renderTok, ih.1], by simp [renderTok, ih.2]⟩
  | heading l cs =>
    have ih := renderInner_frags md md' h cs
    exact ⟨by simp [renderTok, ih.1], by simp [renderTok, ih.2]⟩
  | quote cs =>
    have ih := renderInner_frags md md' h cs
    exact ⟨by simp [renderTok, ih.1], by simp [renderTok, ih.2]⟩
  | paragraph cs =>
    have ih := renderInner_frags md md' h cs
    exact ⟨by simp [renderTok, ih.1], by simp [renderTok, ih.2]⟩
  | blockCode l cs =>
    have ih := renderInner_frags md md' h cs
    exact ⟨by simp [renderTok, ih.1], by simp [renderTok, ih.2]⟩
  | list cs =>
    have ih := renderInner_frags md md' h cs
    exact ⟨by simp [renderTok, ih.1], by simp [renderTok, ih.2]⟩
  | listItem p cs =>
    have ih := renderInner_frags md md' h cs
    exact ⟨by simp [renderTok, ih.1], by simp [renderTok, ih.2]⟩
  | table cs =>
    have ih := renderInner_frags md md' h cs
    exact ⟨by simp [renderTok, ih.1], by simp [renderTok, ih.2]⟩
  | tableRow cs =>
    have ih := renderInner_frags md md' h cs
    exact ⟨by simp [renderTok, ih.1], by simp [renderTok, ih.2]⟩
  | tableCell cs =>
    have ih := renderInner_frags md md' h cs
    exact ⟨by simp [renderTok, ih.1], by simp [renderTok, ih.2]⟩
  | thematicBreak cs =>
    have ih := renderInner_frags md md' h cs
    exact ⟨by simp [renderTok, ih.1], by simp [renderTok, ih.2]⟩
  | document cs =>
    have ih := renderInner_frags md md' h cs
    refine ⟨?_, by simp [renderTok, ih.2]⟩
    simp only [renderTok]
    rw [ih.1]
    simp only [documentFragments, h.1, h.2.1, h.2.2]

theorem renderInner_frags (md md' : Metadata) (h : fragsAgree md md')
    (ts : List Token) :
    (renderInner md ts).out = (renderInner md' ts).out
      ∧ (renderInner md ts).debug = (renderInner md' ts).debug := by
  cases ts with
  | nil => exact ⟨rfl, rfl⟩
  | cons t ts =>
    have ih1 := renderTok_frags md md' h t
    simp only [renderInner, renderTok_md]
    have ih2 := renderInner_frags md md' h ts
    exact ⟨by rw [ih1.1, ih2.1], by rw [ih1.2, ih2.2]⟩

end

/-! ### Metadata restriction and erasure -/

/-- The metadata mapping restricted to the three keys the renderer reads. -/
def restrictMeta (md : Metadata) : Metadata :=
  md.filter (fun kv => kv.1 == "title" || kv.1 == "date" || kv.1 == "author")

/-- The metadata mapping with every binding of one key removed. -/
def Metadata.erase (md : Metadata) (key : String) : Metadata :=
  md.filter (fun kv => !(kv.1 == key))

theorem get_filter (p : String × PyValue → Bool) (md : Metadata) (k : String)
    (hk : ∀ v, p (k, v) = true) :
    Metadata.get (md.filter p) k = Metadata.get md k := by
  induction md with
  | nil => rfl
  | cons kv rest ih =>
    obtain ⟨k', v'⟩ := kv
    by_cases hkk : k' = k
    · subst hkk
      rw [List.filter_cons_of_pos (hk v')]
      simp [Metadata.get, ih]
    · by_cases hp : p (k', v') = true
      · rw [List.filter_cons_of_pos hp]
        simp [Metadata.get, hkk, ih]
      · rw [List.filter_cons_of_neg (by simpa using hp)]
        simp [Metadata.get, hkk, ih]

theorem get_erase_self (md : Metadata) (key : String) :
    Metadata.get (Metadata.erase md key) key = none := by
  induction md with
  | nil => rfl
  | cons kv rest ih =>
    obtain ⟨k', v'⟩ := kv
    by_cases hkk : k' = key
    · subst hkk
      rw [Metadata.erase, List.filter_cons_of_neg (by simp)]
      exact ih
    · rw [Metadata.erase, List.filter_cons_of_pos (by simpa using hkk)]
      simp [Metadata.get, hkk]
      exact ih

theorem get_erase_other (md : Metadata) (key k : String) (h : k ≠ key) :
    Metadata.get (Metadata.erase md key) k = Metadata.get md k :=
  get_filter _ md k (fun _ => by simpa using h)

theorem get_restrict_title (md : Metadata) :
    Metadata.get (restrictMeta md) "title" = Metadata.get md "title" :=
  get_filter _ md "title" (fun _ => by simp)

theorem get_restrict_date (md : Metadata) :
    Metadata.get (restrictMeta md) "date" = Metadata.get md "date" :=
  get_filter _ md "date" (fun _ => by simp)

theorem get_restrict_author (md : Metadata) :
    Metadata.get (restrictMeta md) "author" = Metadata.get md "author" :=
  get_filter _ md "author" (fun _ => by simp)

theorem fragsAgree_restrict (md : Metadata) : fragsAgree md (restrictMeta md) := by
  refine ⟨?_, ?_, ?_⟩
  · rw [titleFrag, titleFrag, get_restrict_title]
  · rw [dateFrag, dateFrag, get_restrict_date]
  · rw [authorFrag, authorFrag, get_restrict_author]

/-! ### The dispatch over node kinds

Modelled from the spec: the dispatch over node kinds is performed by the
third-party mistletoe `BaseRenderer` (configured by `OrgRenderer.__init__`,
whose code is not part of this repository), so its behaviour on a node kind
with no rendering rule is modelled from the specification: an unrecognized
node kind reaching the dispatch must fail with a
`RenderError::UnsupportedNodeKind` identifying the offending kind, rather
than silently dropping that node's content. -/

/-- The renderer's error type, from the spec's error-handling design. -/
inductive RenderError where
  | unsupportedNodeKind (kind : String)
deriving DecidableEq

/-- A node reaching the dispatch: either one of the kinds of the closed set
with a rendering rule, or a node of an unrecognized kind (e.g. a future AST
extension), carrying its kind name. -/
inductive ExtToken where
  | known (t : Token)
  | unknown (kind : String)

/-- Modelled from the spec: the renderer's kind dispatch.  A known kind is
rendered by its rule; an unrecognized kind fails with
`RenderError.unsupportedNodeKind` naming the offending kind. -/
def renderDispatch (md : Metadata) : ExtToken → Except RenderError RenderOut
  | .known t => .ok (renderTok md t)
  | .unknown kind => .error (.unsupportedNodeKind kind)

/-! ### The claims -/

/-- C1: the claimed preamble property fails on the code.  For metadata with
a title but neither `date` nor `author`, the fragment list is
`[title line, "\n", "", "\n", "", "\n", body]`; because the empty fragments
separate the newline fragments, no element equals the previously kept one,
the de-duplication pass removes nothing, and the joined output carries a
title line followed by TWO blank lines instead of exactly one. -/
theorem c1_missing_fields_render :
    (renderTok [("title", PyValue.vStr "T")]
      (Token.document [Token.paragraph [Token.rawText "Hello"]])).out
      = "#+title: T\n\n\nHello\n\n"
    ∧ (renderTok [("title", PyValue.vStr "T")]
      (Token.document [Token.paragraph [Token.rawText "Hello"]])).out
      ≠ "#+title: T\n\nHello\n\n"
    ∧ dedupPass (documentFragments [("title", PyValue.vStr "T")] "Hello\n\n")
      = documentFragments [("title", PyValue.vStr "T")] "Hello\n\n" :=
  ⟨rfl, by decide, rfl⟩

/-- C2: rendering a well-formed tree containing a `ListItem` node is not
free of diagnostic output: `render_list_item` calls `pprint(vars(token))`,
so the render of such a tree emits one diagnostic dump of the list-item
token. -/
theorem c2_list_item_debug_output :
    (renderTok [] (Token.document
      [Token.list [Token.listItem 0 [Token.rawText "x"]]])).debug
      = [Token.listItem 0 [Token.rawText "x"]] := rfl

/-- C3: a node whose kind has no rendering rule reaching the dispatch fails
with `RenderError.unsupportedNodeKind` identifying the offending kind,
while every node of the closed kind set renders successfully, so no content
is silently dropped. -/
theorem c3_unsupported_kind (md : Metadata) (kind : String) :
    renderDispatch md (ExtToken.unknown kind)
      = Except.error (RenderError.unsupportedNodeKind kind)
    ∧ ∀ t : Token, ∃ r, renderDispatch md (ExtToken.known t) = Except.ok r :=
  ⟨rfl, fun t => ⟨renderTok md t, rfl⟩⟩

/-- C4 (counterexample): the claim fails as stated.  A heading followed by
a sibling paragraph whose inline content starts with a hard line break —
both blocks in the claimed kind set — renders with THREE consecutive
newline characters at the junction, not two. -/
theorem c4_counterexample :
    isSepBlock (Token.heading 1 [Token.rawText "A"]) = true
    ∧ isSepBlock (Token.paragraph [Token.lineBreak false, Token.rawText "B"]) = true
    ∧ newlinesBetween
        (renderTok [] (Token.heading 1 [Token.rawText "A"])).out
        (renderTok [] (Token.paragraph [Token.lineBreak false, Token.rawText "B"])).out
      = 3 :=
  ⟨rfl, rfl, rfl⟩

/-- C4 (amended): for two adjacent sibling blocks that are each a Heading,
Paragraph, or CodeBlock, the junction of their renderings carries exactly
two consecutive newline characters, provided the first block's inline
content does not render to a string ending in a newline and, when the
second block is a Paragraph, its inline content renders to a nonempty
string not starting with a newline. -/
theorem c4_separator (md : Metadata) (b1 b2 : Token)
    (h1 : isSepBlock b1 = true) (h2 : isSepBlock b2 = true)
    (hE : innerEndsOK md b1 = true) (hS : startOK md b2 = true) :
    newlinesBetween (renderTok md b1).out (renderTok md b2).out = 2 := by
  rw [newlinesBetween, trailing_of_sep md b1 h1 hE, leading_of_sep md b2 h2 hS]

/-- C4 (witness): the amended separator theorem applied to a concrete
heading followed by a concrete paragraph. -/
theorem c4_separator_witness :
    newlinesBetween (renderTok [] (Token.heading 1 [Token.rawText "A"])).out
      (renderTok [] (Token.paragraph [Token.rawText "B"])).out = 2 :=
  c4_separator [] (Token.heading 1 [Token.rawText "A"])
    (Token.paragraph [Token.rawText "B"]) rfl rfl rfl rfl

/-- C5: the end-to-end scenario: metadata with title `Post` and date
`2024-01-01` (no author) over a document of one level-1 heading `Post` and
one paragraph `Hello` renders to exactly the claimed string. -/
theorem c5_end_to_end :
    (renderTok [("title", PyValue.vStr "Post"), ("date", PyValue.vStr "2024-01-01")]
      (Token.document [Token.heading 1 [Token.rawText "Post"],
        Token.paragraph [Token.rawText "Hello"]])).out
      = "#+title: Post\n#+date: 2024-01-01\n\n* Post\n\nHello\n\n" := rfl

/-- C6: `RefTag` and `RelRefTag` render as `[[target][title]]` and
`FigureTag` renders as `[[target]]`, in general and at the claimed concrete
inputs. -/
theorem c6_ref_figure_render :
    (∀ (md : Metadata) (title target : String),
      (renderTok md (Token.refTag title target)).out
        = "[[" ++ target ++ "][" ++ title ++ "]]"
      ∧ (renderTok md (Token.relRefTag title target)).out
        = "[[" ++ target ++ "][" ++ title ++ "]]"
      ∧ (renderTok md (Token.figureTag target)).out = "[[" ++ target ++ "]]")
    ∧ (renderTok [] (Token.refTag "Home" "/index")).out = "[[/index][Home]]"
    ∧ (renderTok [] (Token.relRefTag "Home" "/index")).out = "[[/index][Home]]"
    ∧ (renderTok [] (Token.figureTag "/img/a.png")).out = "[[/img/a.png]]" :=
  ⟨fun _ _ _ => ⟨rfl, rfl, rfl⟩, rfl, rfl, rfl⟩

/-- C7: a code block with language `python` and literal body `print(1)\n`
renders to exactly the claimed string: begin marker, language tag, newline,
literal body, end marker, two newlines — and in general the begin marker,
a space, the language, a newline, the body, the end marker and two
newlines. -/
theorem c7_code_block_render :
    (renderTok [] (Token.blockCode "python" [Token.rawText "print(1)\n"])).out
      = "#+begin_src python\nprint(1)\n#+end_src\n\n"
    ∧ ∀ (md : Metadata) (language body : String),
        (renderTok md (Token.blockCode language [Token.rawText body])).out
          = "#+begin_src " ++ language ++ "\n" ++ body ++ "#+end_src" ++ "\n\n" := by
  refine ⟨rfl, fun md language body => ?_⟩
  have h1 : (renderTok md (Token.blockCode language [Token.rawText body])).out
      = "#+begin_src" ++ (" " ++ language) ++ "\n" ++ body ++ "#+end_src" ++ "\n\n" := by
    simp [renderTok, renderInner, nn_eq]
  have h2 : ("#+begin_src" ++ " " : String) = "#+begin_src " := rfl
  rw [h1, ← String.append_assoc, h2]

/-- C8: the malformed shortcode `[[< figure >]]`-style source text
`{{< figure >}}` (written with escaped braces here), which lacks the `src`
attribute, matches the `FigureTag` pattern nowhere, so no `FigureTag` node
is produced and the span is left to the enclosing grammar; the matcher is a
total function, so failing to match cannot raise or abort. -/
theorem c8_malformed_figure_no_match :
    searchB figurePattern "\x7b\x7b< figure >\x7d\x7d".data = false := rfl

/-- C9: the metadata mapping is returned unchanged by a render call, and
the produced output and diagnostic trace depend on the mapping only through
its `title`, `date` and `author` bindings: restricting the mapping to those
three keys changes nothing. -/
theorem c9_metadata_frame (md : Metadata) (t : Token) :
    (renderTok md t).md = md
    ∧ (renderTok md t).out = (renderTok (restrictMeta md) t).out
    ∧ (renderTok md t).debug = (renderTok (restrictMeta md) t).debug :=
  ⟨renderTok_md md t,
    (renderTok_frags md (restrictMeta md) (fragsAgree_restrict md) t).1,
    (renderTok_frags md (restrictMeta md) (fragsAgree_restrict md) t).2⟩

/-- C10: when the `date` (resp. `author`) key is present but bound to a
falsy value, the date (resp. author) fragment of the preamble is empty and
the rendered output is identical to the render with the key absent:
omission is decided by the truthiness of the stored value, not by presence
of the key. -/
theorem c10_falsy_omission (md : Metadata) (t : Token) (v : PyValue) :
    (Metadata.get md "date" = some v → pyTruthy v = false →
      dateFrag md = ""
      ∧ (renderTok md t).out = (renderTok (Metadata.erase md "date") t).out)
    ∧ (Metadata.get md "author" = some v → pyTruthy v = false →
      authorFrag md = ""
      ∧ (renderTok md t).out = (renderTok (Metadata.erase md "author") t).out) := by
  constructor
  · intro hget htr
    have hfrag : dateFrag md = "" := by simp [dateFrag, hget, htr]
    refine ⟨hfrag, (renderTok_frags md (Metadata.erase md "date") ?_ t).1⟩
    refine ⟨?_, ?_, ?_⟩
    · rw [titleFrag, titleFrag, get_erase_other md "date" "title" (by decide)]
    · rw [hfrag]
      simp [dateFrag, get_erase_self]
    · rw [authorFrag, authorFrag, get_erase_other md "date" "author" (by decide)]
  · intro hget htr
    have hfrag : authorFrag md = "" := by simp [authorFrag, hget, htr]
    refine ⟨hfrag, (renderTok_frags md (Metadata.erase md "author") ?_ t).1⟩
    refine ⟨?_, ?_, ?_⟩
    · rw [titleFrag, titleFrag, get_erase_other md "author" "title" (by decide)]
    · rw [dateFrag, dateFrag, get_erase_other md "author" "date" (by decide)]
    · rw [hfrag]
      simp [authorFrag, get_erase_self]

/-- C10 (witness): the falsy-omission theorem applied to a mapping binding
`date` to the empty string and `author` to the integer zero. -/
theorem c10_falsy_omission_witness :
    (dateFrag [("date", PyValue.vStr ""), ("author", PyValue.vInt 0)] = ""
      ∧ (renderTok [("date", PyValue.vStr ""), ("author", PyValue.vInt 0)]
          (Token.document [])).out
        = (renderTok (Metadata.erase
            [("date", PyValue.vStr ""), ("author", PyValue.vInt 0)] "date")
            (Token.document [])).out)
    ∧ (authorFrag [("date", PyValue.vStr ""), ("author", PyValue.vInt 0)] = ""
      ∧ (renderTok [("date", PyValue.vStr ""), ("author", PyValue.vInt 0)]
          (Token.document [])).out
        = (renderTok (Metadata.erase
            [("date", PyValue.vStr ""), ("author", PyValue.vInt 0)] "author")
            (Token.document [])).out) :=
  ⟨(c10_falsy_omission [("date", PyValue.vStr ""), ("author", PyValue.vInt 0)]
      (Token.document []) (PyValue.vStr "")).1 (by decide) (by decide),
    (c10_falsy_omission [("date", PyValue.vStr ""), ("author", PyValue.vInt 0)]
      (Token.document []) (PyValue.vInt 0)).2 (by decide) (by decide)⟩

end Fixer
